import Mathlib

/-!
Verification development for the static macro-call resolver of
`core/dbt/clients/jinja_static.py`.

The resolver operates on the abstract syntax tree produced by the external
template-parsing collaborator (the jinja environment).  The AST node kinds the
resolver inspects are embedded as the inductive type `JNode`; literal constant
payloads are embedded as `PyConst`.  Host-language floats are abstracted as
exact rationals (only truthiness and classification of float literals matter
to this subsystem, never float arithmetic).

The resolver functions themselves are translated directly from the source:
`DbtMacroCall.get_type`, `DbtMacroCall.from_call`,
`statically_extract_macro_calls`, `statically_parse_adapter_dispatch`,
`statically_parse_ref_or_source`, `statically_parse_unrendered_config`, and
`construct_static_kwarg_value`.  Parsing (`env.parse` / `find_all`) and the
literal extractor (`py_extract_from_source`) are external collaborators; the
resolver functions therefore take their outputs as arguments.  The opt-in
test-only parse cache is pure memoization (disabled in production, never a
correctness dependency) and is not modelled.
-/

/-- Literal constant payloads carried by a `Const` AST node, mirroring the
host-language value universe the classifier inspects: strings, booleans,
integers, floats (abstracted as exact rationals), the null value, and a
catch-all for any other literal payload. -/
inductive PyConst where
  | str (s : String)
  | bool (b : Bool)
  | int (n : Int)
  | float (q : Rat)
  | pynone
  | otherVal
deriving DecidableEq, Repr

/-- Host-language `isinstance(v, str)`. -/
def isInstanceStr : PyConst → Bool
  | .str _ => true
  | _ => false

/-- Host-language `isinstance(v, bool)`. -/
def isInstanceBool : PyConst → Bool
  | .bool _ => true
  | _ => false

/-- Host-language `isinstance(v, int)`: booleans are a structural subtype of
integers in the host evaluation model, so they also satisfy this test. -/
def isInstanceInt : PyConst → Bool
  | .bool _ => true
  | .int _ => true
  | _ => false

/-- Host-language `isinstance(v, float)`. -/
def isInstanceFloat : PyConst → Bool
  | .float _ => true
  | _ => false

/-- Host-language `v is None`. -/
def isNoneVal : PyConst → Bool
  | .pynone => true
  | _ => false

/-- Host-language truthiness of a literal value (`if func_name:` etc.). -/
def pyTruthy : PyConst → Bool
  | .str s => s ≠ ""
  | .bool b => b
  | .int n => n ≠ 0
  | .float q => q ≠ 0
  | .pynone => false
  | .otherVal => true

/-- Host-language `str(v)` as used by f-string interpolation.  Float and
other-object formatting details of the host are abstracted; no claim depends
on them. -/
def pyToStr : PyConst → String
  | .str s => s
  | .bool b => if b then "True" else "False"
  | .int n => toString n
  | .float q => toString q
  | .pynone => "None"
  | .otherVal => "object"

/-- f-string interpolation of a value that may be the host null. -/
def pyToStrOpt : Option PyConst → String
  | Option.none => "None"
  | some v => pyToStr v

/-- AST node kinds inspected by the resolver (jinja2.nodes): `Const`, `Name`,
`Call`, `Getattr`, `Concat`, `Dict`, `List`, plus a catch-all `other` for node
kinds the resolver never matches (those have none of the `value`, `name`,
`node`, `attr` fields it reads).  Keyword arguments of a call are (key, value)
pairs, mirroring `Keyword(key, value)` nodes. -/
inductive JNode where
  | const (v : PyConst)
  | name (id : String)
  | call (callee : JNode) (args : List JNode) (kwargs : List (String × JNode))
  | getattr (obj : JNode) (attr : String)
  | concat (items : List JNode)
  | dict (pairs : List (JNode × JNode))
  | list (items : List JNode)
  | other

/-- `type(node).__name__` on an AST node. -/
def nodeTypeName : JNode → String
  | .const _ => "Const"
  | .name _ => "Name"
  | .call _ _ _ => "Call"
  | .getattr _ _ => "Getattr"
  | .concat _ => "Concat"
  | .dict _ => "Dict"
  | .list _ => "List"
  | .other => "Other"

/-- Reading `node.value`: only `Const` nodes carry a `value` field; on every
other node kind the host raises an attribute error, so the read is partial. -/
def attrValue : JNode → Option PyConst
  | .const v => some v
  | _ => Option.none

/-- Reading `node.args` on a call node (call nodes always carry `args`). -/
def getArgs : JNode → List JNode
  | .call _ args _ => args
  | _ => []

/-- Reading `node.kwargs` on a call node. -/
def getKwargs : JNode → List (String × JNode)
  | .call _ _ kwargs => kwargs
  | _ => []

/-- Reading `node.items` on a `List` node. -/
def getListItems : JNode → List JNode
  | .list items => items
  | _ => []

/-- Host-dictionary assignment `d[k] = v`: overwrite in place if the key is
present, otherwise append (insertion order preserved). -/
def dictSet (d : List (String × String)) (k v : String) : List (String × String) :=
  if d.any (fun p => p.1 == k) then
    d.map (fun p => if p.1 == k then (k, v) else p)
  else
    d ++ [(k, v)]

/-- `DbtMacroCall`: one statically-detected macro invocation.  `name` is a
host value (in practice a string, possibly dotted); `source` is the template
text; `arg_types` the coarse tags of positional arguments; `kwarg_types` the
tags of keyword arguments. -/
structure DbtMacroCall where
  name : PyConst
  source : String
  arg_types : List String
  kwarg_types : List (String × String)
deriving DecidableEq, Repr

/-- `DbtMacroCall.get_type`: the coarse argument-type classifier, translated
branch for branch (isinstance chain order preserved; the `bool` test precedes
the `int` test, which also accepts booleans). -/
def DbtMacroCall.get_type (param : JNode) : String :=
  match param with
  | .name _ => ""
  | .call _ _ _ => ""
  | .getattr _ _ => ""
  | .concat _ => "Dict"
  | .const v =>
    if isInstanceStr v then "str"
    else if isInstanceBool v then "bool"
    else if isInstanceInt v then "int"
    else if isInstanceFloat v then "float"
    else if isNoneVal v then "None"
    else ""
  | .dict _ => "Dict"
  | .list _ => ""
  | .other => ""

/-- `DbtMacroCall.from_call`: build a call record, classifying each positional
argument and each keyword argument of the call node. -/
def DbtMacroCall.from_call (call : JNode) (name : PyConst) : DbtMacroCall :=
  { name := name
    source := ""
    arg_types := (getArgs call).map DbtMacroCall.get_type
    kwarg_types := (getKwargs call).foldl
      (fun d kw => dictSet d kw.1 (DbtMacroCall.get_type kw.2)) [] }

/-- Errors raised by the dispatch resolver.  `macroNameNotString` models
`MacroNameNotStringError(kwarg_value=...)` (carrying the offending value);
`macroNamespaceNotString` models `MacroNamespaceNotStringError(kwarg_type)`
(carrying the node-kind label); `attributeError` models the host attribute
error raised when a field absent from a node is read. -/
inductive DispatchError where
  | macroNameNotString (kwargValue : PyConst)
  | macroNamespaceNotString (kwargType : String)
  | attributeError (attr : String)
deriving DecidableEq, Repr

/-- The optional namespace-lookup collaborator: `db_wrapper.dispatch(func_name,
macro_namespace=...).macro` yields the resolved macro's `package_name` and
`name`.  External collaborator, modelled as a function of the two arguments the
resolver passes it. -/
def DbWrapper : Type := Option PyConst → Option PyConst → String × String

/-- Mutable state threaded through the keyword-argument loop of
`statically_parse_adapter_dispatch`: the current `func_name`, the current
`macro_namespace`, and the candidate list built so far. -/
structure DispatchState where
  func_name : Option PyConst
  macro_namespace : Option PyConst
  calls : List DbtMacroCall

/-- The `for kwarg in func_call.kwargs` loop of
`statically_parse_adapter_dispatch`, translated kwarg by kwarg.  A `macro_name`
keyword must be a `Const`: the literal value overwrites `func_name` and
contributes a candidate; otherwise the code builds
`MacroNameNotStringError(kwarg_value=kwarg.value.value)`, and reading `.value`
on a non-`Const` node raises the host attribute error first.  A
`macro_namespace` keyword must be a `Const`, else
`MacroNamespaceNotStringError` carries the node-kind label. -/
def dispatchKwargLoop (func_call : JNode) :
    DispatchState → List (String × JNode) → Except DispatchError DispatchState
  | st, [] => .ok st
  | st, (key, value) :: rest =>
    if key == "macro_name" then
      if nodeTypeName value == "Const" then
        match attrValue value with
        | some c =>
          dispatchKwargLoop func_call
            { st with func_name := some c,
                      calls := st.calls ++ [DbtMacroCall.from_call func_call c] } rest
        | Option.none => .error (.attributeError "value")
      else
        match attrValue value with
        | some c => .error (.macroNameNotString c)
        | Option.none => .error (.attributeError "value")
    else if key == "macro_namespace" then
      if nodeTypeName value == "Const" then
        match attrValue value with
        | some c => dispatchKwargLoop func_call { st with macro_namespace := some c } rest
        | Option.none => .error (.attributeError "value")
      else
        .error (.macroNamespaceNotString (nodeTypeName value))
    else
      dispatchKwargLoop func_call st rest

/-- The `for item in packages_arg.items` loop: each element's `value` field is
read in order (raising the host attribute error at the first element that is
not a `Const`). -/
def constListValues : List JNode → Except DispatchError (List PyConst)
  | [] => .ok []
  | item :: rest =>
    match attrValue item with
    | some v =>
      match constListValues rest with
      | .ok vs => .ok (v :: vs)
      | .error e => .error e
    | Option.none => .error (.attributeError "value")

/-- `statically_parse_adapter_dispatch`, translated statement by statement:
read the first positional argument's `value` (candidate appended when truthy);
record the second positional argument and its node-kind; run the keyword loop;
then process the positional packages argument (a literal `List` has its
elements' values gathered — the gathered list is not consulted on any later
path — and a `Const` overwrites `macro_namespace`); finally either consult the
namespace-lookup collaborator, or, with no collaborator, emit one candidate
per package where the package list is `[macro_namespace]` when the namespace
is truthy and empty otherwise.  The evaluation-context argument is accepted
but never read, as in the source. -/
def statically_parse_adapter_dispatch (func_call : JNode) (_ctx : String → Bool)
    (db_wrapper : Option DbWrapper) : Except DispatchError (List DbtMacroCall) :=
  let args := getArgs func_call
  let step1 : Except DispatchError (Option PyConst × List DbtMacroCall) :=
    match args with
    | [] => .ok (Option.none, [])
    | a0 :: _ =>
      match attrValue a0 with
      | Option.none => .error (.attributeError "value")
      | some v =>
        .ok (some v, if pyTruthy v then [DbtMacroCall.from_call func_call v] else [])
  match step1 with
  | .error e => .error e
  | .ok (fn0, calls0) =>
    let packages_arg := args.get? 1
    match dispatchKwargLoop func_call ⟨fn0, Option.none, calls0⟩ (getKwargs func_call) with
    | .error e => .error e
    | .ok st =>
      let step2 : Except DispatchError (Option PyConst) :=
        match packages_arg with
        | Option.none => .ok st.macro_namespace
        | some pa =>
          if nodeTypeName pa == "List" then
            match constListValues (getListItems pa) with
            | .error e => .error e
            | .ok _ => .ok st.macro_namespace
          else if nodeTypeName pa == "Const" then
            .ok (attrValue pa)
          else
            .ok st.macro_namespace
      match step2 with
      | .error e => .error e
      | .ok ns =>
        match db_wrapper with
        | some w =>
          let r := w st.func_name ns
          .ok (st.calls ++ [DbtMacroCall.from_call func_call (.str (r.1 ++ "." ++ r.2))])
        | Option.none =>
          let packages : List PyConst :=
            match ns with
            | some v => if pyTruthy v then [v] else []
            | Option.none => []
          .ok (st.calls ++ packages.map (fun p =>
            DbtMacroCall.from_call func_call (.str (pyToStr p ++ "." ++ pyToStrOpt st.func_name))))

/-- The reserved builtin names (`standard_calls`) as a membership test on the
resolved name. -/
def isStandardName (v : PyConst) : Bool :=
  v == .str "source" || v == .str "ref" || v == .str "config"

/-- `ctx.get(name)` truthiness: the evaluation context is a string-keyed
mapping, modelled as the predicate "bound to a truthy value"; a lookup with a
non-string key finds nothing. -/
def ctxGetTruthy (ctx : String → Bool) : PyConst → Bool
  | .str s => ctx s
  | _ => false

/-- `macro_call.name not in possible_macro_calls`: the host compares the name
(a string/constant value) against `DbtMacroCall` record instances; equality
between a value and a record instance of a different class is always false in
the host semantics, so the membership test never succeeds. -/
def nameInCallList (_v : PyConst) (calls : List DbtMacroCall) : Bool :=
  calls.any (fun _ => false)

/-- Tail of the extraction loop body: skip the call when its name is a
reserved builtin or already bound to a truthy context value; otherwise append
unless the (never-succeeding) membership test holds. -/
def filterAppend (ctx : String → Bool) (acc : List DbtMacroCall)
    (mc : DbtMacroCall) : List DbtMacroCall :=
  if isStandardName mc.name || ctxGetTruthy ctx mc.name then acc
  else if nameInCallList mc.name acc then acc
  else acc ++ [mc]

/-- One iteration of the `for func_call in func_calls` loop of
`statically_extract_macro_calls`: a simple-name callee builds a record named
by the callee; a dotted callee on a simple name either delegates to the
dispatch resolver (`adapter.dispatch`), skips (other `adapter.*` calls), or
builds a dotted-name record whose `arg_types` gain one extra `unknown` entry
per positional argument on top of the classifier's entries; any other callee
shape is skipped. -/
def extract_step (ctx : String → Bool) (db_wrapper : Option DbWrapper)
    (acc : List DbtMacroCall) (func_call : JNode) :
    Except DispatchError (List DbtMacroCall) :=
  match func_call with
  | .call callee _ _ =>
    match callee with
    | .name n => .ok (filterAppend ctx acc (DbtMacroCall.from_call func_call (.str n)))
    | .getattr obj attr =>
      match obj with
      | .name package_name =>
        if package_name == "adapter" then
          if attr == "dispatch" then
            match statically_parse_adapter_dispatch func_call ctx db_wrapper with
            | .error e => .error e
            | .ok ad_calls => .ok (acc ++ ad_calls)
          else
            .ok acc
        else
          let mc0 := DbtMacroCall.from_call func_call (.str (package_name ++ "." ++ attr))
          let mc := { mc0 with
            arg_types := mc0.arg_types ++ (getArgs func_call).map (fun _ => "") }
          .ok (filterAppend ctx acc mc)
      | _ => .ok acc
    | _ => .ok acc
  | _ => .ok acc

/-- The full extraction loop over the call nodes. -/
def extract_loop (ctx : String → Bool) (db_wrapper : Option DbWrapper) :
    List DbtMacroCall → List JNode → Except DispatchError (List DbtMacroCall)
  | acc, [] => .ok acc
  | acc, fc :: rest =>
    match extract_step ctx db_wrapper acc fc with
    | .error e => .error e
    | .ok acc2 => extract_loop ctx db_wrapper acc2 rest

/-- `statically_extract_macro_calls(text, ctx, db_wrapper)`: the template is
parsed and its call nodes collected by the external parsing collaborator, so
the call-node sequence `func_calls` is taken as an argument; the loop then
runs and every produced record is stamped with `source := text`. -/
def statically_extract_macro_calls (text : String) (ctx : String → Bool)
    (db_wrapper : Option DbWrapper) (func_calls : List JNode) :
    Except DispatchError (List DbtMacroCall) :=
  match extract_loop ctx db_wrapper [] func_calls with
  | .error e => .error e
  | .ok calls => .ok (calls.map (fun c => { c with source := text }))

/-- Modelled from the spec: `RefArgs` (`dbt.artifacts.resources.RefArgs` is
repository code not present under `src/`): "{package: optional string, name:
string, version: optional string|int} — structured form of a ref(...) call."
Construction reads each field with `.get`, so a missing field is `none`;
`version` may be a string or an integer, carried as a literal value. -/
structure RefArgs where
  package : Option String
  name : Option String
  version : Option PyConst
deriving DecidableEq, Repr

/-- One ref mapping reported by the literal extractor (`package` / `name` /
`version` fields, each possibly missing). -/
structure RawRef where
  package : Option String
  name : Option String
  version : Option PyConst
deriving DecidableEq, Repr

/-- The literal extractor's report: the `refs` and `sources` collections of
the mapping returned by `py_extract_from_source` (each `sources` entry is a
two-element source-name / table-name pair). -/
structure ExtractedLiterals where
  refs : List RawRef
  sources : List (String × String)
deriving DecidableEq, Repr

/-- The extractor's malformed-input signal (`ExtractionError`). -/
inductive ExtractionError where
  | extractionFailed
deriving DecidableEq, Repr

/-- `ParsingError(msg)`. -/
structure ParsingError where
  msg : String
deriving DecidableEq, Repr

/-- Result of `statically_parse_ref_or_source`: a `RefArgs`, or the
two-element `[source_name, table_name]` list. -/
inductive RefOrSource where
  | refA (r : RefArgs)
  | sourceA (pair : List String)
deriving DecidableEq, Repr

/-- `statically_parse_ref_or_source(expression)`: the expression is wrapped in
interpolation delimiters and handed to the external literal extractor, whose
outcome is taken as the `extracted` argument.  An extraction failure becomes a
`ParsingError` naming the expression; a non-empty `refs` report yields a
`RefArgs` built from the first entry's fields; otherwise a non-empty `sources`
report yields the first source/table pair; otherwise a `ParsingError` naming
the expression. -/
def statically_parse_ref_or_source (expression : String)
    (extracted : Except ExtractionError ExtractedLiterals) :
    Except ParsingError RefOrSource :=
  match extracted with
  | .error _ => .error ⟨"Invalid jinja expression: " ++ expression⟩
  | .ok statically_parsed =>
    match statically_parsed.refs with
    | raw_ref :: _ =>
      .ok (.refA ⟨raw_ref.package, raw_ref.name, raw_ref.version⟩)
    | [] =>
      match statically_parsed.sources with
      | (source_name, source_table_name) :: _ =>
        .ok (.sourceA [source_name, source_table_name])
      | [] => .error ⟨"Invalid ref or source expression: " ++ expression⟩

/-- The pattern character list occurs at the head of the text character
list. -/
def charListMatchesAt : List Char → List Char → Bool
  | _, [] => true
  | [], _ :: _ => false
  | c :: cs, p :: ps => c == p && charListMatchesAt cs ps

/-- The pattern character list occurs somewhere in the text character list. -/
def charListHasSub : List Char → List Char → Bool
  | [], pat => charListMatchesAt [] pat
  | c :: cs, pat => charListMatchesAt (c :: cs) pat || charListHasSub cs pat

/-- Host-language substring test `pat in s`. -/
def containsSubstr (s pat : String) : Bool :=
  charListHasSub s.data pat.data

/-- The filter of `statically_parse_unrendered_config`:
`hasattr(f, "node") and hasattr(f.node, "name") and f.node.name == "config"`
(call and attribute-access nodes carry a `node` field; only simple-name nodes
carry `name`). -/
def isConfigCall (f : JNode) : Bool :=
  match f with
  | .call (.name n) _ _ => n == "config"
  | .getattr (.name n) _ => n == "config"
  | _ => false

mutual

/-- Textual rendering of an AST node, mirroring the host node repr used by
`str(kwarg)` (field-by-field; the host's quoting of string literals and its
context fields are abstracted — no claim depends on the exact text, only on
the rendering being a stable function of the unevaluated expression). -/
def jnodeRepr : JNode → String
  | .const v => "Const(value=" ++ pyToStr v ++ ")"
  | .name id => "Name(name=" ++ id ++ ")"
  | .call callee args kwargs =>
    "Call(node=" ++ jnodeRepr callee ++ ", args=[" ++ jnodeListRepr args ++
      "], kwargs=[" ++ jnodeKwListRepr kwargs ++ "])"
  | .getattr obj attr => "Getattr(node=" ++ jnodeRepr obj ++ ", attr=" ++ attr ++ ")"
  | .concat items => "Concat(nodes=[" ++ jnodeListRepr items ++ "])"
  | .dict pairs => "Dict(items=[" ++ jnodePairListRepr pairs ++ "])"
  | .list items => "List(items=[" ++ jnodeListRepr items ++ "])"
  | .other => "Node()"

/-- Comma-separated rendering of a node list. -/
def jnodeListRepr : List JNode → String
  | [] => ""
  | [x] => jnodeRepr x
  | x :: y :: rest => jnodeRepr x ++ ", " ++ jnodeListRepr (y :: rest)

/-- Comma-separated rendering of a keyword list. -/
def jnodeKwListRepr : List (String × JNode) → String
  | [] => ""
  | (k, v) :: rest =>
    "Keyword(key=" ++ k ++ ", value=" ++ jnodeRepr v ++ ")" ++
      (match rest with
       | [] => ""
       | _ => ", " ++ jnodeKwListRepr rest)

/-- Comma-separated rendering of a dict-literal pair list. -/
def jnodePairListRepr : List (JNode × JNode) → String
  | [] => ""
  | (k, v) :: rest =>
    "Pair(key=" ++ jnodeRepr k ++ ", value=" ++ jnodeRepr v ++ ")" ++
      (match rest with
       | [] => ""
       | _ => ", " ++ jnodePairListRepr rest)

end

/-- `construct_static_kwarg_value(kwarg)`: stringify the keyword node rather
than re-assembling the value — a stable textual snapshot of the unevaluated
expression. -/
def construct_static_kwarg_value (kwarg : String × JNode) : String :=
  "Keyword(key=" ++ kwarg.1 ++ ", value=" ++ jnodeRepr kwarg.2 ++ ")"

/-- `statically_parse_unrendered_config(string)`: fast-reject when the literal
substring is absent; otherwise the text is parsed and its call nodes collected
by the external parsing collaborator (taken as the `func_calls` argument),
the calls are filtered to those whose callee name is exactly `config`, only
the first such call is read, and its keyword arguments are snapshotted into a
mapping. -/
def statically_parse_unrendered_config (string : String)
    (func_calls : List JNode) : Option (List (String × String)) :=
  if ¬ containsSubstr string "config(" then Option.none
  else
    let config_func_calls := func_calls.filter isConfigCall
    match config_func_calls.head? with
    | Option.none => Option.none
    | some config_func_call =>
      some ((getKwargs config_func_call).foldl
        (fun d kwarg => dictSet d kwarg.1 (construct_static_kwarg_value kwarg)) [])

/-- An `adapter.dispatch(...)` call node with the given arguments. -/
def adapterDispatchCall (args : List JNode) (kwargs : List (String × JNode)) : JNode :=
  .call (.getattr (.name "adapter") "dispatch") args kwargs

/-- An evaluation context binding nothing. -/
def noCtx : String → Bool := fun _ => false

/-- When every element of a literal list has a `value` field, the
element-value gathering loop succeeds. -/
theorem constListValues_ok (items : List JNode)
    (h : ∀ it ∈ items, (attrValue it).isSome = true) :
    ∃ vs, constListValues items = .ok vs := by
  induction items with
  | nil => exact ⟨[], rfl⟩
  | cons it rest ih =>
    have hit := h it (by simp)
    obtain ⟨v, hv⟩ := Option.isSome_iff_exists.mp hit
    obtain ⟨vs, hvs⟩ := ih (fun x hx => h x (by simp [hx]))
    exact ⟨v :: vs, by simp [constListValues, hv, hvs]⟩

/-- C1: a dispatch call with a literal macro name and a literal packages list
and no collaborator yields only the bare-name candidate: the emitted names are
`[foo]`, not the claimed `[pkg_a.foo, pkg_b.foo]`. -/
theorem c1_counterexample :
    Except.map (List.map DbtMacroCall.name)
        (statically_parse_adapter_dispatch
          (adapterDispatchCall
            [.const (.str "foo"), .list [.const (.str "pkg_a"), .const (.str "pkg_b")]] [])
          noCtx Option.none)
      = Except.ok [PyConst.str "foo"]
    ∧ ([PyConst.str "foo"] : List PyConst)
        ≠ [PyConst.str "pkg_a.foo", PyConst.str "pkg_b.foo"] :=
  ⟨rfl, by decide⟩

/-- C1 (amended): with a truthy literal macro-name first argument, a literal
list second argument whose elements are all literals, no keyword arguments and
no collaborator, `statically_parse_adapter_dispatch` emits exactly one
`MacroCall`, named by the bare macro name; the gathered packages list is
overwritten before candidates are emitted, so no per-package candidate
appears. -/
theorem c1_amended (n : String) (items : List JNode) (ctx : String → Bool)
    (hn : n ≠ "")
    (hitems : ∀ it ∈ items, (attrValue it).isSome = true) :
    statically_parse_adapter_dispatch
        (adapterDispatchCall [.const (.str n), .list items] []) ctx Option.none
      = .ok [DbtMacroCall.from_call
          (adapterDispatchCall [.const (.str n), .list items] []) (.str n)] := by
  obtain ⟨vs, hvs⟩ := constListValues_ok items hitems
  simp [statically_parse_adapter_dispatch, adapterDispatchCall, getArgs, getKwargs,
    getListItems, dispatchKwargLoop, attrValue, nodeTypeName, pyTruthy, hn, hvs]

/-- C1 amended witness at a concrete input. -/
theorem c1_amended_witness :
    statically_parse_adapter_dispatch
        (adapterDispatchCall
          [.const (.str "foo"), .list [.const (.str "pkg_a"), .const (.str "pkg_b")]] [])
        noCtx Option.none
      = .ok [DbtMacroCall.from_call
          (adapterDispatchCall
            [.const (.str "foo"), .list [.const (.str "pkg_a"), .const (.str "pkg_b")]] [])
          (.str "foo")] :=
  c1_amended "foo" [.const (.str "pkg_a"), .const (.str "pkg_b")] noCtx
    (by decide) (by intro it hit; fin_cases hit <;> rfl)

/-- C2: the deduplication test compares a name value against `DbtMacroCall`
record instances, which is always false in the host semantics, so duplicate
call nodes produce duplicate records: two identical `foo()` calls yield two
records both named `foo`. -/
theorem c2_duplicates_kept :
    statically_extract_macro_calls "t" noCtx Option.none
        [.call (.name "foo") [] [], .call (.name "foo") [] []]
      = .ok [⟨.str "foo", "t", [], []⟩, ⟨.str "foo", "t", [], []⟩] := rfl

/-- C4: a dispatch call with a literal first positional argument and a literal
`macro_namespace` keyword, with no collaborator, yields TWO records (`foo` and
`pkg_a.foo`); the claimed single-record result is falsified. -/
theorem c4_counterexample :
    Except.map (List.map DbtMacroCall.name)
        (statically_parse_adapter_dispatch
          (adapterDispatchCall [.const (.str "foo")]
            [("macro_namespace", .const (.str "pkg_a"))]) noCtx Option.none)
      = Except.ok [PyConst.str "foo", PyConst.str "pkg_a.foo"]
    ∧ ([PyConst.str "foo", PyConst.str "pkg_a.foo"] : List PyConst)
        ≠ [PyConst.str "pkg_a.foo"] :=
  ⟨rfl, by decide⟩

/-- C4 (amended): with a truthy literal string first positional argument `n`,
a literal truthy string `macro_namespace` keyword `ns`, and no collaborator,
resolution yields exactly two records, in order: the bare name `n` and the
namespaced name `ns.n`. -/
theorem c4_amended (n ns : String) (ctx : String → Bool)
    (hn : n ≠ "") (hns : ns ≠ "") :
    statically_parse_adapter_dispatch
        (adapterDispatchCall [.const (.str n)]
          [("macro_namespace", .const (.str ns))]) ctx Option.none
      = .ok [DbtMacroCall.from_call
              (adapterDispatchCall [.const (.str n)]
                [("macro_namespace", .const (.str ns))]) (.str n),
             DbtMacroCall.from_call
              (adapterDispatchCall [.const (.str n)]
                [("macro_namespace", .const (.str ns))]) (.str (ns ++ "." ++ n))] := by
  simp [statically_parse_adapter_dispatch, adapterDispatchCall, getArgs, getKwargs,
    dispatchKwargLoop, attrValue, nodeTypeName, pyTruthy, pyToStr, pyToStrOpt, hn, hns]

/-- C4 amended witness at a concrete input. -/
theorem c4_amended_witness :
    statically_parse_adapter_dispatch
        (adapterDispatchCall [.const (.str "foo")]
          [("macro_namespace", .const (.str "pkg_a"))]) noCtx Option.none
      = .ok [DbtMacroCall.from_call
              (adapterDispatchCall [.const (.str "foo")]
                [("macro_namespace", .const (.str "pkg_a"))]) (.str "foo"),
             DbtMacroCall.from_call
              (adapterDispatchCall [.const (.str "foo")]
                [("macro_namespace", .const (.str "pkg_a"))]) (.str ("pkg_a" ++ "." ++ "foo"))] :=
  c4_amended "foo" "pkg_a" noCtx (by decide) (by decide)

/-- C5: a non-literal `macro_name` keyword makes resolution fail, but with the
host attribute error raised while reading `.value` off the non-literal node to
build the intended error, not with the macro-name-not-string error itself; a
non-literal `macro_namespace` keyword fails as claimed, carrying the node-kind
label. -/
theorem c5_error_behavior :
    statically_parse_adapter_dispatch
        (adapterDispatchCall [] [("macro_name", .call (.name "get_name") [] [])])
        noCtx Option.none
      = .error (.attributeError "value")
    ∧ statically_parse_adapter_dispatch
        (adapterDispatchCall [.const (.str "foo")]
          [("macro_namespace", .call (.name "get_ns") [] [])]) noCtx Option.none
      = .error (.macroNamespaceNotString "Call")
    ∧ (DispatchError.attributeError "value")
        ≠ (DispatchError.macroNameNotString (.str "get_name")) :=
  ⟨rfl, rfl, by decide⟩

/-- C9: the claim that a non-literal first positional argument is handled
without raising is falsified: a variable-reference argument makes resolution
fail with the host attribute error. -/
theorem c9_counterexample :
    statically_parse_adapter_dispatch (adapterDispatchCall [.name "x"] [])
        noCtx Option.none
      = .error (.attributeError "value") := rfl

/-- C9 (amended): when the first positional argument is a node with no literal
`value` field (variable reference, nested call, ...), resolution fails
immediately with the host attribute error — no candidate list is produced;
the positional candidate is omitted without error only when the first
positional argument is a literal whose value is falsy (then, with no keyword
arguments and no collaborator, the result is the empty candidate list). -/
theorem c9_amended :
    (∀ (callee a0 : JNode) (rest : List JNode) (kwargs : List (String × JNode))
        (ctx : String → Bool) (db : Option DbWrapper),
      attrValue a0 = Option.none →
      statically_parse_adapter_dispatch (.call callee (a0 :: rest) kwargs) ctx db
        = .error (.attributeError "value"))
    ∧ (∀ (callee : JNode) (v : PyConst) (ctx : String → Bool),
      pyTruthy v = false →
      statically_parse_adapter_dispatch (.call callee [.const v] []) ctx Option.none
        = .ok []) := by
  constructor
  · intro callee a0 rest kwargs ctx db h
    simp [statically_parse_adapter_dispatch, getArgs, h]
  · intro callee v ctx h
    simp [statically_parse_adapter_dispatch, getArgs, getKwargs, dispatchKwargLoop,
      attrValue, h]

/-- C9 amended witness at concrete inputs. -/
theorem c9_amended_witness :
    statically_parse_adapter_dispatch
        (.call (.getattr (.name "adapter") "dispatch") [.name "x"] []) noCtx Option.none
      = .error (.attributeError "value")
    ∧ statically_parse_adapter_dispatch
        (.call (.getattr (.name "adapter") "dispatch") [.const (.str "")] []) noCtx Option.none
      = .ok [] :=
  ⟨c9_amended.1 _ _ [] [] noCtx Option.none rfl, c9_amended.2 _ (.str "") noCtx rfl⟩

/-- C6: the classifier is a total function into the closed tag set and maps
each node shape exactly as claimed: literal string to `str`, boolean literal
to `bool` (decided before the int/float tests, which a boolean would also
satisfy), integer literal to `int`, float literal to `float`, null literal to
`None`, any other literal payload to the unknown tag; name references, nested
calls and attribute accesses to the unknown tag; concatenation and dict
literal nodes both to `Dict`; everything else to the unknown tag. -/
theorem c6_get_type_table :
    (∀ s, DbtMacroCall.get_type (.const (.str s)) = "str")
    ∧ (∀ b, DbtMacroCall.get_type (.const (.bool b)) = "bool")
    ∧ (∀ n : Int, DbtMacroCall.get_type (.const (.int n)) = "int")
    ∧ (∀ q : Rat, DbtMacroCall.get_type (.const (.float q)) = "float")
    ∧ DbtMacroCall.get_type (.const .pynone) = "None"
    ∧ DbtMacroCall.get_type (.const .otherVal) = ""
    ∧ (∀ s, DbtMacroCall.get_type (.name s) = "")
    ∧ (∀ c args kwargs, DbtMacroCall.get_type (.call c args kwargs) = "")
    ∧ (∀ o a, DbtMacroCall.get_type (.getattr o a) = "")
    ∧ (∀ items, DbtMacroCall.get_type (.concat items) = "Dict")
    ∧ (∀ pairs, DbtMacroCall.get_type (.dict pairs) = "Dict")
    ∧ (∀ items, DbtMacroCall.get_type (.list items) = "")
    ∧ DbtMacroCall.get_type .other = ""
    ∧ (∀ param, DbtMacroCall.get_type param
        ∈ (["", "str", "bool", "int", "float", "None", "Dict"] : List String)) := by
  refine ⟨fun s => rfl, fun b => rfl, fun n => rfl, fun q => rfl, rfl, rfl,
    fun s => rfl, fun c args kwargs => rfl, fun o a => rfl, fun items => rfl,
    fun pairs => rfl, fun items => rfl, rfl, ?_⟩
  intro param
  cases param with
  | const v => cases v <;> simp [DbtMacroCall.get_type, isInstanceStr, isInstanceBool,
      isInstanceInt, isInstanceFloat, isNoneVal]
  | _ => simp [DbtMacroCall.get_type]

/-- C3: for a dotted call `pkg_a.m` with one literal string argument, the
emitted record's `arg_types` is `[str, unknown]` — length two for a single
positional argument, with a non-unknown first entry — falsifying both parts of
the claim. -/
theorem c3_counterexample :
    Except.map (List.map DbtMacroCall.arg_types)
        (statically_extract_macro_calls "t" noCtx Option.none
          [.call (.getattr (.name "pkg_a") "m") [.const (.str "x")] []])
      = Except.ok [["str", ""]]
    ∧ (["str", ""] : List String) ≠ [""] ∧ ("str" : String) ≠ "" :=
  ⟨rfl, by decide, by decide⟩

/-- The membership test of the deduplication step never succeeds. -/
theorem nameInCallList_eq_false (v : PyConst) (calls : List DbtMacroCall) :
    nameInCallList v calls = false := by
  induction calls with
  | nil => rfl
  | cons c cs ih => simp [nameInCallList, List.any]

/-- A dotted name contains a dot, so it never equals a dot-free name. -/
theorem dotted_ne_plain (pkg m s : String) (hs : ('.' ∈ s.data) = False) :
    pkg ++ "." ++ m ≠ s := by
  intro h
  rw [eq_iff_iff] at hs
  apply hs.mp
  rw [← h, String.data_append, String.data_append]
  exact List.mem_append.mpr (Or.inl (List.mem_append.mpr (Or.inr (by decide))))

/-- A dotted call name is never one of the reserved builtin names. -/
theorem dotted_not_standard (pkg m : String) :
    isStandardName (.str (pkg ++ "." ++ m)) = false := by
  have h1 := dotted_ne_plain pkg m "source" (by simp)
  have h2 := dotted_ne_plain pkg m "ref" (by simp)
  have h3 := dotted_ne_plain pkg m "config" (by simp)
  simp [isStandardName, h1, h2, h3]

/-- C3 (amended): for every dotted macro call `pkg.m(a, ...)` with
`pkg ≠ adapter` whose dotted name is not truthy-bound in the context, the
record emitted for it — at any point of the extraction loop, hence for any
surrounding template — has `positional_arg_types` holding the classifier's
tag for each positional argument followed by one unknown tag per positional
argument: twice as many entries as positional arguments, with only the second
half forced to unknown. -/
theorem c3_amended (text : String) (ctx : String → Bool) (db : Option DbWrapper)
    (pkg m : String) (args : List JNode) (kwargs : List (String × JNode))
    (acc : List DbtMacroCall)
    (hpkg : pkg ≠ "adapter") (hctx : ctx (pkg ++ "." ++ m) = false) :
    extract_step ctx db acc (.call (.getattr (.name pkg) m) args kwargs)
      = .ok (acc ++
          [{ name := .str (pkg ++ "." ++ m)
             source := ""
             arg_types := args.map DbtMacroCall.get_type ++ args.map (fun _ => "")
             kwarg_types := kwargs.foldl
               (fun d kw => dictSet d kw.1 (DbtMacroCall.get_type kw.2)) [] }])
    ∧ statically_extract_macro_calls text ctx db
        [.call (.getattr (.name pkg) m) args kwargs]
      = .ok [{ name := .str (pkg ++ "." ++ m)
               source := text
               arg_types := args.map DbtMacroCall.get_type ++ args.map (fun _ => "")
               kwarg_types := kwargs.foldl
                 (fun d kw => dictSet d kw.1 (DbtMacroCall.get_type kw.2)) [] }] := by
  constructor
  · simp [extract_step, filterAppend, DbtMacroCall.from_call, getArgs, getKwargs,
      ctxGetTruthy, nameInCallList_eq_false, dotted_not_standard, hpkg, hctx]
  · simp [statically_extract_macro_calls, extract_loop, extract_step, filterAppend,
      DbtMacroCall.from_call, getArgs, getKwargs, ctxGetTruthy,
      nameInCallList_eq_false, dotted_not_standard, hpkg, hctx]

/-- C3 amended witness at a concrete input. -/
theorem c3_amended_witness :
    extract_step noCtx Option.none []
        (.call (.getattr (.name "pkg_a") "m") [.const (.str "x")] [])
      = .ok [{ name := .str "pkg_a.m"
               source := ""
               arg_types := ["str", ""]
               kwarg_types := [] }]
    ∧ statically_extract_macro_calls "t" noCtx Option.none
        [.call (.getattr (.name "pkg_a") "m") [.const (.str "x")] []]
      = .ok [{ name := .str "pkg_a.m"
               source := "t"
               arg_types := ["str", ""]
               kwarg_types := [] }] :=
  c3_amended "t" noCtx Option.none "pkg_a" "m" [.const (.str "x")] [] []
    (by decide) rfl

/-- A call node whose callee is `adapter.dispatch` (the only shape the
extraction loop delegates to the dispatch resolver). -/
def isDispatchNode : JNode → Bool
  | .call (.getattr (.name "adapter") "dispatch") _ _ => true
  | _ => false

/-- A simple-name call to one of the reserved builtins. -/
def isStdSimpleCall : JNode → Bool
  | .call (.name n) _ _ => n == "source" || n == "ref" || n == "config"
  | _ => false

/-- The loop tail either drops the record or appends it; when it appends, the
record's name is neither a reserved builtin nor truthy-bound in the context. -/
theorem filterAppend_cases (ctx : String → Bool) (acc : List DbtMacroCall)
    (mc : DbtMacroCall) :
    filterAppend ctx acc mc = acc ∨
      (filterAppend ctx acc mc = acc ++ [mc]
        ∧ isStandardName mc.name = false ∧ ctxGetTruthy ctx mc.name = false) := by
  by_cases h : (isStandardName mc.name || ctxGetTruthy ctx mc.name) = true
  · left; simp [filterAppend, h]
  · right
    simp only [Bool.or_eq_true, not_or, Bool.not_eq_true] at h
    obtain ⟨h1, h2⟩ := h
    exact ⟨by simp [filterAppend, h1, h2, nameInCallList_eq_false], h1, h2⟩

/-- One loop iteration on a non-dispatch call node leaves the accumulator
unchanged or appends one record whose name passed the builtin/context
filter. -/
theorem extract_step_no_dispatch (ctx : String → Bool) (db : Option DbWrapper)
    (acc : List DbtMacroCall) (fc : JNode) (h : isDispatchNode fc = false) :
    extract_step ctx db acc fc = .ok acc ∨
      ∃ mc, extract_step ctx db acc fc = .ok (acc ++ [mc])
        ∧ isStandardName mc.name = false ∧ ctxGetTruthy ctx mc.name = false := by
  cases fc with
  | call callee args kwargs =>
    cases callee with
    | name n =>
      rcases filterAppend_cases ctx acc
          (DbtMacroCall.from_call (.call (.name n) args kwargs) (.str n)) with
        hc | ⟨hc, h1, h2⟩
      · left; simpa [extract_step] using hc
      · right; exact ⟨_, by simpa [extract_step] using hc, h1, h2⟩
    | getattr obj attr =>
      cases obj with
      | name pkg =>
        by_cases hp : pkg = "adapter"
        · subst hp
          by_cases ha : attr = "dispatch"
          · subst ha
            have ht : isDispatchNode
                (JNode.call (.getattr (.name "adapter") "dispatch") args kwargs) = true := rfl
            rw [ht] at h
            exact Bool.noConfusion h
          · left; simp [extract_step, ha]
        · rcases filterAppend_cases ctx acc
              { DbtMacroCall.from_call (.call (.getattr (.name pkg) attr) args kwargs)
                  (.str (pkg ++ "." ++ attr)) with
                arg_types :=
                  (DbtMacroCall.from_call (.call (.getattr (.name pkg) attr) args kwargs)
                    (.str (pkg ++ "." ++ attr))).arg_types
                  ++ (getArgs (.call (.getattr (.name pkg) attr) args kwargs)).map
                      (fun _ => "") } with
            hc | ⟨hc, h1, h2⟩
          · left; simpa [extract_step, hp] using hc
          · right; exact ⟨_, by simpa [extract_step, hp] using hc, h1, h2⟩
      | const v => exact Or.inl rfl
      | call c a k => exact Or.inl rfl
      | getattr o a => exact Or.inl rfl
      | concat l => exact Or.inl rfl
      | dict p => exact Or.inl rfl
      | list l => exact Or.inl rfl
      | other => exact Or.inl rfl
    | const v => exact Or.inl rfl
    | concat l => exact Or.inl rfl
    | dict p => exact Or.inl rfl
    | list l => exact Or.inl rfl
    | other => exact Or.inl rfl
    | call c a k => exact Or.inl rfl
  | const v => exact Or.inl rfl
  | name n => exact Or.inl rfl
  | getattr o a => exact Or.inl rfl
  | concat l => exact Or.inl rfl
  | dict p => exact Or.inl rfl
  | list l => exact Or.inl rfl
  | other => exact Or.inl rfl

/-- One loop iteration on a reserved-builtin simple-name call leaves the
accumulator unchanged. -/
theorem extract_step_std (ctx : String → Bool) (db : Option DbWrapper)
    (acc : List DbtMacroCall) (fc : JNode) (h : isStdSimpleCall fc = true) :
    extract_step ctx db acc fc = .ok acc := by
  cases fc with
  | call callee args kwargs =>
    cases callee with
    | name n =>
      simp only [isStdSimpleCall, Bool.or_eq_true, beq_iff_eq] at h
      have hstd : isStandardName (.str n) = true := by
        rcases h with (h | h) | h <;> subst h <;> rfl
      simp [extract_step, filterAppend, DbtMacroCall.from_call, hstd]
    | const v => simp [isStdSimpleCall] at h
    | call c a k => simp [isStdSimpleCall] at h
    | getattr o a => simp [isStdSimpleCall] at h
    | concat l => simp [isStdSimpleCall] at h
    | dict p => simp [isStdSimpleCall] at h
    | list l => simp [isStdSimpleCall] at h
    | other => simp [isStdSimpleCall] at h
  | const v => simp [isStdSimpleCall] at h
  | name n => simp [isStdSimpleCall] at h
  | getattr o a => simp [isStdSimpleCall] at h
  | concat l => simp [isStdSimpleCall] at h
  | dict p => simp [isStdSimpleCall] at h
  | list l => simp [isStdSimpleCall] at h
  | other => simp [isStdSimpleCall] at h

/-- Loop invariant: with no dispatch node in the remaining input, every record
in a successful result either was already in the accumulator or passed the
builtin/context filter. -/
theorem extract_loop_inv (ctx : String → Bool) (db : Option DbWrapper) :
    ∀ (l : List JNode) (acc res : List DbtMacroCall),
      (∀ fc ∈ l, isDispatchNode fc = false) →
      extract_loop ctx db acc l = .ok res →
      (∀ mc ∈ acc, isStandardName mc.name = false ∧ ctxGetTruthy ctx mc.name = false) →
      ∀ mc ∈ res, isStandardName mc.name = false ∧ ctxGetTruthy ctx mc.name = false := by
  intro l
  induction l with
  | nil =>
    intro acc res _ hrun hacc
    simp only [extract_loop] at hrun
    cases hrun
    exact hacc
  | cons fc rest ih =>
    intro acc res hl hrun hacc
    rcases extract_step_no_dispatch ctx db acc fc (hl fc (by simp)) with
      hs | ⟨mc, hs, h1, h2⟩
    · simp only [extract_loop, hs] at hrun
      exact ih acc res (fun x hx => hl x (by simp [hx])) hrun hacc
    · simp only [extract_loop, hs] at hrun
      refine ih (acc ++ [mc]) res (fun x hx => hl x (by simp [hx])) hrun ?_
      intro m hm
      rcases List.mem_append.mp hm with hm1 | hm2
      · exact hacc m hm1
      · rw [List.mem_singleton.mp hm2]
        exact ⟨h1, h2⟩

/-- With only reserved-builtin simple-name calls, the loop returns its
accumulator unchanged. -/
theorem extract_loop_std (ctx : String → Bool) (db : Option DbWrapper) :
    ∀ (l : List JNode) (acc : List DbtMacroCall),
      (∀ fc ∈ l, isStdSimpleCall fc = true) →
      extract_loop ctx db acc l = .ok acc := by
  intro l
  induction l with
  | nil => intro acc _; rfl
  | cons fc rest ih =>
    intro acc hl
    have hs := extract_step_std ctx db acc fc (hl fc (by simp))
    simp only [extract_loop, hs]
    exact ih acc (fun x hx => hl x (by simp [hx]))

/-- C7: dispatch-produced records bypass the builtin filter: the template
`adapter.dispatch(config)` returns a record named `config`, a reserved
builtin, falsifying the general exclusion. -/
theorem c7_counterexample :
    Except.map (List.map DbtMacroCall.name)
        (statically_extract_macro_calls "t" noCtx Option.none
          [adapterDispatchCall [.const (.str "config")] []])
      = Except.ok [PyConst.str "config"]
    ∧ isStandardName (.str "config") = true :=
  ⟨rfl, rfl⟩

/-- C7 (amended): a template whose call nodes are all simple-name calls to the
reserved builtins yields the empty sequence; and provided no call node is an
`adapter.dispatch` call, no returned record has a reserved-builtin name or a
name bound to a truthy context value — dispatch-spliced records are exempt
from that filter, so the restriction is required. -/
theorem c7_amended (text : String) (ctx : String → Bool) (db : Option DbWrapper)
    (func_calls : List JNode) :
    ((∀ fc ∈ func_calls, isStdSimpleCall fc = true) →
      statically_extract_macro_calls text ctx db func_calls = .ok [])
    ∧ ((∀ fc ∈ func_calls, isDispatchNode fc = false) →
      ∀ res, statically_extract_macro_calls text ctx db func_calls = .ok res →
        ∀ mc ∈ res, isStandardName mc.name = false ∧ ctxGetTruthy ctx mc.name = false) := by
  constructor
  · intro h
    have hrun := extract_loop_std ctx db func_calls [] h
    simp [statically_extract_macro_calls, hrun]
  · intro hnd res hres mc hmc
    rcases hcase : extract_loop ctx db [] func_calls with e | calls
    · simp [statically_extract_macro_calls, hcase] at hres
    · simp only [statically_extract_macro_calls, hcase] at hres
      cases hres
      have hcalls := extract_loop_inv ctx db func_calls [] calls hnd hcase (by simp)
      obtain ⟨c, hcmem, hceq⟩ := List.mem_map.mp hmc
      have hp := hcalls c hcmem
      rw [← hceq]
      exact hp

/-- C7 amended witness: a builtin-only template yields the empty result, and a
record returned for a dispatch-free template passes the filter. -/
theorem c7_amended_witness :
    statically_extract_macro_calls "t" noCtx Option.none
        [.call (.name "ref") [] []] = .ok []
    ∧ (isStandardName (PyConst.str "pkg_a.m") = false
        ∧ ctxGetTruthy noCtx (PyConst.str "pkg_a.m") = false) :=
  ⟨(c7_amended "t" noCtx Option.none [.call (.name "ref") [] []]).1
      (by intro fc hfc; rw [List.mem_singleton.mp hfc]; rfl),
   (c7_amended "t" noCtx Option.none [.call (.getattr (.name "pkg_a") "m") [] []]).2
      (by intro fc hfc; rw [List.mem_singleton.mp hfc]; rfl)
      [⟨.str "pkg_a.m", "t", [], []⟩] rfl
      ⟨.str "pkg_a.m", "t", [], []⟩ (List.mem_singleton.mpr rfl)⟩

/-- C8: `statically_parse_ref_or_source` returns a `RefArgs` built from the
first reported ref's package/name/version fields when the literal extractor
reports at least one ref; otherwise the two-element source-name/table-name
pair when it reports at least one source; and fails with a `ParsingError`
naming the invalid expression exactly when the extractor reports neither, or
when the extractor itself signals malformed input. -/
theorem c8_ref_or_source (expression : String)
    (extracted : Except ExtractionError ExtractedLiterals) :
    (∀ e, extracted = .error e →
      statically_parse_ref_or_source expression extracted
        = .error ⟨"Invalid jinja expression: " ++ expression⟩)
    ∧ (∀ sp r rs, extracted = .ok sp → sp.refs = r :: rs →
      statically_parse_ref_or_source expression extracted
        = .ok (.refA ⟨r.package, r.name, r.version⟩))
    ∧ (∀ sp s t ss, extracted = .ok sp → sp.refs = [] → sp.sources = (s, t) :: ss →
      statically_parse_ref_or_source expression extracted = .ok (.sourceA [s, t]))
    ∧ (∀ sp, extracted = .ok sp → sp.refs = [] → sp.sources = [] →
      statically_parse_ref_or_source expression extracted
        = .error ⟨"Invalid ref or source expression: " ++ expression⟩) := by
  refine ⟨?_, ?_, ?_, ?_⟩
  · intro e he
    subst he
    rfl
  · intro sp r rs he hr
    subst he
    simp [statically_parse_ref_or_source, hr]
  · intro sp s t ss he hr hs
    subst he
    simp [statically_parse_ref_or_source, hr, hs]
  · intro sp he hr hs
    subst he
    simp [statically_parse_ref_or_source, hr, hs]

/-- C8 witness: the four branches at concrete extractor reports. -/
theorem c8_ref_or_source_witness :
    statically_parse_ref_or_source "x"
        (.ok ⟨[⟨some "a", some "b", some (.int 3)⟩], []⟩)
      = .ok (.refA ⟨some "a", some "b", some (.int 3)⟩)
    ∧ statically_parse_ref_or_source "s" (.ok ⟨[], [("sn", "tn")]⟩)
      = .ok (.sourceA ["sn", "tn"])
    ∧ statically_parse_ref_or_source "bad" (.error .extractionFailed)
      = .error ⟨"Invalid jinja expression: " ++ "bad"⟩
    ∧ statically_parse_ref_or_source "no" (.ok ⟨[], []⟩)
      = .error ⟨"Invalid ref or source expression: " ++ "no"⟩ :=
  ⟨(c8_ref_or_source "x" _).2.1 _ _ _ rfl rfl,
   (c8_ref_or_source "s" _).2.2.1 _ "sn" "tn" _ rfl rfl rfl,
   (c8_ref_or_source "bad" _).1 _ rfl,
   (c8_ref_or_source "no" _).2.2.2 _ rfl rfl rfl⟩

/-- C10: when the template text contains the `config(` substring and the
filtered config-call list has at least two entries, only the first config
call's keyword arguments are snapshotted; later config calls are ignored. -/
theorem c10_config_first_call (s : String) (func_calls : List JNode)
    (cfg1 cfg2 : JNode) (rest : List JNode)
    (hsub : containsSubstr s "config(" = true)
    (hfilter : func_calls.filter isConfigCall = cfg1 :: cfg2 :: rest) :
    statically_parse_unrendered_config s func_calls
      = some ((getKwargs cfg1).foldl
          (fun d kwarg => dictSet d kwarg.1 (construct_static_kwarg_value kwarg)) []) := by
  simp [statically_parse_unrendered_config, hsub, hfilter]

/-- First config call of a two-config template used as the C10 witness. -/
def cfgCallA : JNode :=
  .call (.name "config") []
    [("materialized", .call (.name "env_var") [.const (.str "X")] [])]

/-- Second config call of a two-config template used as the C10 witness. -/
def cfgCallB : JNode :=
  .call (.name "config") [] [("enabled", .const (.bool true))]

/-- C10 witness: with two config calls only the first call's keywords are
returned. -/
theorem c10_config_first_call_witness :
    statically_parse_unrendered_config "config(a) config(b)" [cfgCallA, cfgCallB]
      = some ((getKwargs cfgCallA).foldl
          (fun d kwarg => dictSet d kwarg.1 (construct_static_kwarg_value kwarg)) []) :=
  c10_config_first_call "config(a) config(b)" [cfgCallA, cfgCallB] cfgCallA cfgCallB []
    (by decide) rfl
